import Mathlib

/-!
Verification of the authorization/ownership decision layer of the
BACKEND-NEST.JS repository: role enum, entities (User, Breed, Cat), the
ownership check, role guard, token codec, access guard, credential
verifier, soft-delete read paths, and the endpoint auth table.

Machine integers of the source (ids, ages, timestamps) are modelled as Nat;
database tables as lists of records; thrown NestJS exceptions as
`Except ApiError` results.
-/

namespace BackendNest

/-- Role enum (common/enums): USER and ADMIN are the only roles. -/
inductive Role where
  | user
  | admin
  deriving DecidableEq, Repr

/-- UserActiveInterface (common/interfaces): the acting principal attached to
the request by the access guard, carrying the decoded email and role. -/
structure UserActiveInterface where
  email : String
  role : Role
  deriving DecidableEq, Repr

/-- Error outcomes. Constructors `unauthorized` and `forbidden` stand for the
NestJS UnauthorizedException (HTTP 401) and ForbiddenException (HTTP 403);
`notFound`, `invalidCredentials` and `invalidToken` stand for the remaining
outcomes of the error taxonomy. -/
inductive ApiError where
  | unauthorized
  | forbidden
  | notFound
  | invalidCredentials
  | invalidToken
  deriving DecidableEq, Repr

/-- User entity: id (generated), name, email (unique), password (stored
bcrypt hash, column declared select:false), role (enum column with default
Role.USER), deletedAt (DeleteDateColumn; none = not soft-deleted). -/
structure User where
  id : Nat
  name : String
  email : String
  password : String
  role : Role
  deletedAt : Option Nat
  deriving DecidableEq, Repr

/-- Breed entity: id (primary, generated) and name are its only columns; the
cats field is the inverse OneToMany relation, not a column. -/
structure Breed where
  id : Nat
  name : String
  deriving DecidableEq, Repr

/-- Cat entity: id (primary, generated), name, age, deletedAt
(DeleteDateColumn), breed (ManyToOne, eager), and the userEmail column
(JoinColumn referencing User.email) naming the owner. -/
structure Cat where
  id : Nat
  name : String
  age : Nat
  deletedAt : Option Nat
  breed : Breed
  userEmail : String
  deriving DecidableEq, Repr

/-- validateOwnership from cats.service.ts, transcribed from the source:
throws UnauthorizedException when the user is not ADMIN and the cat's
userEmail differs from the user's email; otherwise passes. -/
def validateOwnership (cat : Cat) (user : UserActiveInterface) :
    Except ApiError Unit :=
  if user.role ≠ Role.admin ∧ cat.userEmail ≠ user.email then
    Except.error ApiError.unauthorized
  else
    Except.ok ()

/-- Modelled from the spec: roles.guard.ts is not among the source files (the
architecture document gives only its comment skeleton, "permits if the role
matches or is ADMIN"). Spec 4.4: passes if principal.role == required or
principal.role == ADMIN, otherwise fails with Forbidden; pure function. -/
def rolesGuardCheck (required : Role) (p : UserActiveInterface) :
    Except ApiError Unit :=
  if p.role = required ∨ p.role = Role.admin then
    Except.ok ()
  else
    Except.error ApiError.forbidden

/-- Token validity window: JwtModule.register signOptions use expiresIn of
one day; expressed in seconds. -/
def tokenTtl : Nat := 86400

/-- Modelled from the spec: the JWT signing primitive lives in the external
jwt library, only its configuration is in the source. The signature is an
ideal symbolic MAC: two MAC values are equal exactly when the secret and
every signed field are equal (tamper-evident, unforgeable). -/
structure Mac where
  secret : String
  email : String
  role : Role
  exp : Nat
  deriving DecidableEq, Repr

/-- A structurally well-formed token: the signed claim set (email, role),
the expiry timestamp, and the signature. -/
structure Token where
  email : String
  role : Role
  exp : Nat
  sig : Mac
  deriving DecidableEq, Repr

/-- A raw bearer token as received: either structurally malformed or a
well-formed token value. -/
inductive RawToken where
  | malformed
  | wellFormed (t : Token)
  deriving DecidableEq, Repr

/-- Signing: the MAC over a claim set and expiry under a secret. -/
def signMac (secret email : String) (role : Role) (exp : Nat) : Mac :=
  { secret := secret, email := email, role := role, exp := exp }

/-- Modelled from the spec: issue(principal) signs {email, role} with the
configured secret and stamps expiry now + tokenTtl. -/
def issue (secret : String) (now : Nat) (p : UserActiveInterface) : Token :=
  { email := p.email
    role := p.role
    exp := now + tokenTtl
    sig := signMac secret p.email p.role (now + tokenTtl) }

/-- Modelled from the spec: verify recomputes the MAC over the token's own
fields with the verifier's secret, rejects a signature mismatch, rejects an
expired token (exp ≤ now), and otherwise yields the decoded principal. -/
def verifyToken (secret : String) (now : Nat) (t : Token) :
    Except ApiError UserActiveInterface :=
  if t.sig ≠ signMac secret t.email t.role t.exp then
    Except.error ApiError.invalidToken
  else if t.exp ≤ now then
    Except.error ApiError.invalidToken
  else
    Except.ok { email := t.email, role := t.role }

/-- Modelled from the spec: a structurally malformed token fails verification
outright; a well-formed one goes through verifyToken. -/
def verifyRaw (secret : String) (now : Nat) : RawToken →
    Except ApiError UserActiveInterface
  | RawToken.malformed => Except.error ApiError.invalidToken
  | RawToken.wellFormed t => verifyToken secret now t

/-- Lookup of a user by email excluding soft-deleted records (TypeORM hides
rows whose DeleteDateColumn is set). -/
def findActiveUserByEmail (db : List User) (email : String) : Option User :=
  db.find? (fun u => decide (u.email = email ∧ u.deletedAt = none))

/-- Modelled from the spec: auth.guard.ts is not among the source files (the
architecture document gives only its comment skeleton: extract token, verify
JWT, look the user up in the database, attach it). Spec 4.3: a missing or
unverifiable token fails with Unauthenticated (UnauthorizedException), and
the user record is re-resolved from the decoded email, failing the same way
when no non-deleted user exists. -/
def authGuardCanActivate (secret : String) (now : Nat) (db : List User)
    (header : Option RawToken) : Except ApiError UserActiveInterface :=
  match header with
  | none => Except.error ApiError.unauthorized
  | some raw =>
    match verifyRaw secret now raw with
    | Except.error _ => Except.error ApiError.unauthorized
    | Except.ok p =>
      match findActiveUserByEmail db p.email with
      | none => Except.error ApiError.unauthorized
      | some _ => Except.ok p

/-- Modelled from the spec: the bcryptjs hash primitive is external; it is
modelled as an ideal injective hash, so comparison succeeds exactly when the
stored hash is the hash of the submitted plaintext. -/
def bcryptHash (plain : String) : String :=
  String.append "bcrypt$" plain

/-- Modelled from the spec: bcrypt.compare(plain, stored). -/
def bcryptCompare (plain stored : String) : Bool :=
  stored == bcryptHash plain

/-- Modelled from the spec: auth.service.ts is not among the source files.
Spec 4.1: look the user up by email excluding soft-deleted, fail with
InvalidCredentials when absent or when the password comparison against the
stored hash fails, and on success return {email, role}; read-only (a pure
function of the store). -/
def login (db : List User) (email plain : String) :
    Except ApiError UserActiveInterface :=
  match findActiveUserByEmail db email with
  | none => Except.error ApiError.invalidCredentials
  | some u =>
    if bcryptCompare plain u.password then
      Except.ok { email := u.email, role := u.role }
    else
      Except.error ApiError.invalidCredentials

/-- Modelled from the spec: cats.service.ts list path; TypeORM excludes rows
whose DeleteDateColumn is set, so findAll returns the non-deleted records. -/
def findAllCats (db : List Cat) : List Cat :=
  db.filter (fun c => decide (c.deletedAt = none))

/-- Modelled from the spec: get-by-id reads through the same soft-delete
filter; absent or soft-deleted ids yield nothing (NotFound upstream). -/
def findOneCat (db : List Cat) (id : Nat) : Option Cat :=
  (findAllCats db).find? (fun c => decide (c.id = id))

/-- Modelled from the spec: soft delete (TypeORM softDelete) stamps the
DeleteDateColumn of the matching live record instead of removing the row;
every other row is left untouched. -/
def softDeleteCat (db : List Cat) (id : Nat) (now : Nat) : List Cat :=
  db.map (fun c =>
    if c.id = id ∧ c.deletedAt = none then { c with deletedAt := some now }
    else c)

/-- HTTP methods appearing in the endpoint tables. -/
inductive HttpMethod where
  | post
  | get
  | patch
  | delete
  deriving DecidableEq, Repr

/-- A method mutates state when it is POST, PATCH or DELETE. -/
def isMutation : HttpMethod → Bool
  | HttpMethod.post => true
  | HttpMethod.get => false
  | HttpMethod.patch => true
  | HttpMethod.delete => true

/-- The documented API routes: the three auth endpoints and the CRUD
surfaces for cats, breeds and users. -/
inductive ApiRoute where
  | authRegister
  | authLogin
  | authProfile
  | cats (m : HttpMethod)
  | breeds (m : HttpMethod)
  | users (m : HttpMethod)
  deriving DecidableEq, Repr

/-- The Auth column of the endpoint tables, transcribed from the source:
register and login are open, profile requires USER, every cats route
requires USER, every breeds route requires ADMIN, and every users route is
listed with no auth requirement (dash). -/
def requiredAuth : ApiRoute → Option Role
  | ApiRoute.authRegister => none
  | ApiRoute.authLogin => none
  | ApiRoute.authProfile => some Role.user
  | ApiRoute.cats _ => some Role.user
  | ApiRoute.breeds _ => some Role.admin
  | ApiRoute.users _ => none

/-- The two resource entities with full CRUD mutation surfaces whose entity
definitions appear in the source. -/
inductive ResourceEntity where
  | cat
  | breed
  deriving DecidableEq, Repr

/-- The owner-identity column declared on each resource entity, read off the
entity definitions: Cat declares userEmail (JoinColumn referencing
User.email); Breed declares only id and name, no owner column. -/
def ownerColumn : ResourceEntity → Option String
  | ResourceEntity.cat => some "userEmail"
  | ResourceEntity.breed => none

/-- The User columns selected by default: password is declared select:false,
so it is absent from query results and from anything serialized to the
client from them. -/
structure UserView where
  id : Nat
  name : String
  email : String
  role : Role
  deriving DecidableEq, Repr

/-- Projection of a stored User onto its default-selected columns. -/
def toUserView (u : User) : UserView :=
  { id := u.id, name := u.name, email := u.email, role := u.role }

/-- The list-users read path as seen by a client: non-deleted users under
the default column selection. -/
def listUsersResponse (db : List User) : List UserView :=
  (db.filter (fun u => decide (u.deletedAt = none))).map toUserView

/-- The get-user-by-id read path as seen by a client. -/
def getUserResponse (db : List User) (id : Nat) : Option UserView :=
  ((db.filter (fun u => decide (u.deletedAt = none))).find?
    (fun u => decide (u.id = id))).map toUserView

/-- User creation: the role column carries default Role.USER, so a user
created without an explicit role is stored with role USER; the password is
stored hashed and the DeleteDateColumn starts unset. -/
def mkUser (id : Nat) (name email plain : String) (role? : Option Role) :
    User :=
  { id := id
    name := name
    email := email
    password := bcryptHash plain
    role := role?.getD Role.user
    deletedAt := none }

/-- The three persisted entities whose definitions appear in the source. -/
inductive EntityDef where
  | user
  | breed
  | cat
  deriving DecidableEq, Repr

/-- Whether the entity declares a DeleteDateColumn, read off the entity
definitions: User and Cat declare a deletedAt DeleteDateColumn; Breed
declares only id and name. -/
def hasDeleteDateColumn : EntityDef → Bool
  | EntityDef.user => true
  | EntityDef.breed => false
  | EntityDef.cat => true

/-- Modelled from the spec: the users delete path; like the cat path, TypeORM
soft delete stamps the DeleteDateColumn of the matching live row instead of
removing it, leaving every other row untouched. -/
def softDeleteUser (db : List User) (id : Nat) (now : Nat) : List User :=
  db.map (fun u =>
    if u.id = id ∧ u.deletedAt = none then { u with deletedAt := some now }
    else u)

/-- C1 counterexample: a USER principal that does not own the cat is rejected
by validateOwnership with UnauthorizedException (HTTP 401), not with
Forbidden, so the claim's stated failure mode does not hold on the code. -/
theorem c1_ownership_counterexample :
    validateOwnership
        { id := 1, name := "michi", age := 3, deletedAt := none,
          breed := { id := 1, name := "persa" }, userEmail := "a@x.com" }
        { email := "b@x.com", role := Role.user }
      = Except.error ApiError.unauthorized ∧
    (Except.error ApiError.unauthorized : Except ApiError Unit)
      ≠ Except.error ApiError.forbidden := by
  exact ⟨rfl, by simp⟩

/-- C1 (amended): validateOwnership accepts iff the principal's role is ADMIN
or the principal's email equals the cat's owner email, and in every other
combination it fails with UnauthorizedException (mapped to HTTP 401), not
Forbidden. -/
theorem c1_validateOwnership_characterization (cat : Cat)
    (user : UserActiveInterface) :
    (validateOwnership cat user = Except.ok () ↔
      (user.role = Role.admin ∨ user.email = cat.userEmail)) ∧
    (validateOwnership cat user = Except.error ApiError.unauthorized ↔
      ¬ (user.role = Role.admin ∨ user.email = cat.userEmail)) := by
  unfold validateOwnership
  by_cases h1 : user.role = Role.admin <;>
    by_cases h2 : user.email = cat.userEmail <;>
      simp [h1, h2, eq_comm]

/-- C2: the Role Policy check passes iff the principal's role equals the
required role or is ADMIN, otherwise it fails with Forbidden; in particular
an ADMIN principal passes for every required role. -/
theorem c2_rolesGuard_characterization (required : Role)
    (p : UserActiveInterface) :
    (rolesGuardCheck required p = Except.ok () ↔
      (p.role = required ∨ p.role = Role.admin)) ∧
    (rolesGuardCheck required p = Except.error ApiError.forbidden ↔
      ¬ (p.role = required ∨ p.role = Role.admin)) ∧
    (p.role = Role.admin → rolesGuardCheck required p = Except.ok ()) := by
  unfold rolesGuardCheck
  by_cases h : p.role = required ∨ p.role = Role.admin <;> (simp [h]; try tauto)

/-- C10: a user created without an explicit role gets role USER, never ADMIN,
and every value of the role enum is USER or ADMIN. -/
theorem c10_default_role (id : Nat) (name email plain : String) :
    (mkUser id name email plain none).role = Role.user ∧
    (mkUser id name email plain none).role ≠ Role.admin ∧
    (∀ r : Role, r = Role.user ∨ r = Role.admin) := by
  refine ⟨rfl, ?_, ?_⟩
  · exact fun h => nomatch h
  · intro r
    cases r
    · exact Or.inl rfl
    · exact Or.inr rfl

/-- C3: verifying a token issued for a principal, with the same secret and at
a time inside its validity window, returns exactly that principal. -/
theorem c3_verify_issue_roundtrip (secret : String) (t0 now : Nat)
    (p : UserActiveInterface) (h : now < t0 + tokenTtl) :
    verifyToken secret now (issue secret t0 p) = Except.ok p := by
  unfold verifyToken issue
  simp [Nat.not_le.mpr h]

/-- C3 witness: the round trip at a concrete principal, secret and clock. -/
theorem c3_roundtrip_witness :
    verifyToken "s3cret" 100
        (issue "s3cret" 50 { email := "a@x.com", role := Role.user })
      = Except.ok { email := "a@x.com", role := Role.user } :=
  c3_verify_issue_roundtrip "s3cret" 50 100
    { email := "a@x.com", role := Role.user } (by decide)

/-- C4: verification never authenticates a bad token: a structurally
malformed token fails, a token whose signature was made with a different
secret fails, a token whose payload fields differ from the signed ones
(altered payload) fails, and a token past its expiry fails. -/
theorem c4_verify_rejects_bad_tokens (secret : String) (now : Nat) :
    (verifyRaw secret now RawToken.malformed
      = Except.error ApiError.invalidToken) ∧
    (∀ t : Token, t.sig.secret ≠ secret →
      verifyToken secret now t = Except.error ApiError.invalidToken) ∧
    (∀ t : Token,
      t.sig.email ≠ t.email ∨ t.sig.role ≠ t.role ∨ t.sig.exp ≠ t.exp →
      verifyToken secret now t = Except.error ApiError.invalidToken) ∧
    (∀ t : Token, t.exp ≤ now →
      verifyToken secret now t = Except.error ApiError.invalidToken) := by
  refine ⟨rfl, ?_, ?_, ?_⟩
  · intro t h
    have hs : t.sig ≠ signMac secret t.email t.role t.exp := by
      intro he
      exact h (by rw [he]; rfl)
    simp [verifyToken, hs]
  · intro t h
    have hs : t.sig ≠ signMac secret t.email t.role t.exp := by
      intro he
      rcases h with h | h | h
      · exact h (by rw [he]; rfl)
      · exact h (by rw [he]; rfl)
      · exact h (by rw [he]; rfl)
    simp [verifyToken, hs]
  · intro t h
    by_cases hs : t.sig = signMac secret t.email t.role t.exp
    · simp [verifyToken, hs, h]
    · simp [verifyToken, hs]

/-- C5: when the token verifies but no non-deleted user with the decoded
email exists, the access guard fails with Unauthenticated
(UnauthorizedException); and every principal the guard yields is backed by a
non-deleted user record with that email in the store, so a token for a
deleted user never yields a principal. -/
theorem c5_authGuard_reresolves_user (secret : String) (now : Nat)
    (db : List User) (header : Option RawToken) :
    (∀ raw p, header = some raw → verifyRaw secret now raw = Except.ok p →
      findActiveUserByEmail db p.email = none →
      authGuardCanActivate secret now db header
        = Except.error ApiError.unauthorized) ∧
    (∀ p, authGuardCanActivate secret now db header = Except.ok p →
      ∃ u ∈ db, u.email = p.email ∧ u.deletedAt = none) := by
  constructor
  · intro raw p hh hv hf
    subst hh
    simp [authGuardCanActivate, hv, hf]
  · intro p hp
    cases header with
    | none => simp [authGuardCanActivate] at hp
    | some raw =>
      simp only [authGuardCanActivate] at hp
      cases hv : verifyRaw secret now raw with
      | error e => simp [hv] at hp
      | ok q =>
        simp only [hv] at hp
        cases hf : findActiveUserByEmail db q.email with
        | none => simp [hf] at hp
        | some u =>
          simp only [hf] at hp
          have hqp : q = p := by
            simpa using hp
          subst hqp
          have hmem := List.mem_of_find?_eq_some hf
          have hc := List.find?_some hf
          simp only [decide_eq_true_eq] at hc
          exact ⟨u, hmem, hc.1, hc.2⟩

/-- C6: the credential verifier succeeds only on a non-deleted user with the
submitted email whose stored hash matches the submitted password, returning
that user's email and role; it fails with InvalidCredentials when no
non-deleted user carries the email or when the hash comparison fails. (It is
a pure function of the store, so it mutates nothing.) -/
theorem c6_login_characterization (db : List User) (email plain : String) :
    (∀ p, login db email plain = Except.ok p →
      ∃ u, findActiveUserByEmail db email = some u ∧ u.email = email ∧
        u.deletedAt = none ∧ u.password = bcryptHash plain ∧
        p = { email := u.email, role := u.role }) ∧
    ((∀ u ∈ db, ¬ (u.email = email ∧ u.deletedAt = none)) →
      login db email plain = Except.error ApiError.invalidCredentials) ∧
    (∀ u, findActiveUserByEmail db email = some u →
      u.password ≠ bcryptHash plain →
      login db email plain = Except.error ApiError.invalidCredentials) := by
  refine ⟨?_, ?_, ?_⟩
  · intro p hp
    unfold login at hp
    cases hf : findActiveUserByEmail db email with
    | none => simp [hf] at hp
    | some u =>
      simp only [hf] at hp
      cases hcmp : bcryptCompare plain u.password with
      | false => simp [hcmp] at hp
      | true =>
        simp only [hcmp, if_true] at hp
        have hpu : ({ email := u.email, role := u.role } :
            UserActiveInterface) = p := by
          simpa using hp
        have hpw : u.password = bcryptHash plain := by
          have hb := hcmp
          unfold bcryptCompare at hb
          exact eq_of_beq hb
        have hc := List.find?_some hf
        simp only [decide_eq_true_eq] at hc
        exact ⟨u, rfl, hc.1, hc.2, hpw, hpu.symm⟩
  · intro h
    have hf : findActiveUserByEmail db email = none := by
      unfold findActiveUserByEmail
      rw [List.find?_eq_none]
      intro u hu
      simp only [decide_eq_true_eq]
      exact h u hu
    unfold login
    rw [hf]
  · intro u hf hpw
    have hcmp : bcryptCompare plain u.password = false := by
      unfold bcryptCompare
      exact beq_eq_false_iff_ne.mpr (fun he => hpw he)
    unfold login
    simp [hf, hcmp]

/-- C7 (amended): of the entity definitions, Cat and User declare a deletion
marker (DeleteDateColumn) and Breed declares none; on the marker-carrying
entities the delete paths keep every record (same number of rows; each
resulting row is an original row either untouched or with only its deletion
marker stamped), and the list and get-by-id read paths never surface a row
whose deletion marker is set, on the cat paths and the user paths alike. -/
theorem c7_soft_delete_invariants (db : List Cat) (id now : Nat) :
    hasDeleteDateColumn EntityDef.cat = true ∧
    hasDeleteDateColumn EntityDef.user = true ∧
    hasDeleteDateColumn EntityDef.breed = false ∧
    (softDeleteCat db id now).length = db.length ∧
    (∀ c ∈ softDeleteCat db id now,
      c ∈ db ∨ ∃ c0 ∈ db, c0.id = id ∧ c0.deletedAt = none ∧
        c = { c0 with deletedAt := some now }) ∧
    (∀ (udb : List User) (uid unow : Nat),
      (softDeleteUser udb uid unow).length = udb.length) ∧
    (∀ (udb : List User) (uid unow : Nat),
      ∀ u ∈ softDeleteUser udb uid unow,
      u ∈ udb ∨ ∃ u0 ∈ udb, u0.id = uid ∧ u0.deletedAt = none ∧
        u = { u0 with deletedAt := some unow }) ∧
    (∀ c ∈ findAllCats db, c.deletedAt = none) ∧
    (∀ i c, findOneCat db i = some c → c.deletedAt = none ∧ c.id = i) ∧
    (∀ (udb : List User) (i : Nat) (v : UserView),
      getUserResponse udb i = some v →
      ∃ u ∈ udb, u.deletedAt = none ∧ u.id = i ∧ v = toUserView u) ∧
    (∀ (udb : List User) (v : UserView), v ∈ listUsersResponse udb →
      ∃ u ∈ udb, u.deletedAt = none ∧ v = toUserView u) := by
  refine ⟨rfl, rfl, rfl, ?_, ?_, ?_, ?_, ?_, ?_, ?_, ?_⟩
  · simp [softDeleteCat]
  · intro c hc
    unfold softDeleteCat at hc
    obtain ⟨c0, hc0, heq⟩ := List.mem_map.mp hc
    by_cases h : c0.id = id ∧ c0.deletedAt = none
    · rw [if_pos h] at heq
      exact Or.inr ⟨c0, hc0, h.1, h.2, heq.symm⟩
    · rw [if_neg h] at heq
      exact Or.inl (heq ▸ hc0)
  · intro udb uid unow
    simp [softDeleteUser]
  · intro udb uid unow u hu
    unfold softDeleteUser at hu
    obtain ⟨u0, hu0, heq⟩ := List.mem_map.mp hu
    by_cases h : u0.id = uid ∧ u0.deletedAt = none
    · rw [if_pos h] at heq
      exact Or.inr ⟨u0, hu0, h.1, h.2, heq.symm⟩
    · rw [if_neg h] at heq
      exact Or.inl (heq ▸ hu0)
  · intro c hc
    have h := (List.mem_filter.mp hc).2
    simp only [decide_eq_true_eq] at h
    exact h
  · intro i c hc
    unfold findOneCat at hc
    have hid := List.find?_some hc
    simp only [decide_eq_true_eq] at hid
    have hmem := List.mem_of_find?_eq_some hc
    have hdel := (List.mem_filter.mp hmem).2
    simp only [decide_eq_true_eq] at hdel
    exact ⟨hdel, hid⟩
  · intro udb i v hv
    unfold getUserResponse at hv
    cases hf : (udb.filter (fun u => decide (u.deletedAt = none))).find?
        (fun u => decide (u.id = i)) with
    | none => rw [hf] at hv; cases hv
    | some u =>
      rw [hf] at hv
      have huv : toUserView u = v := by
        simpa using hv
      have hid := List.find?_some hf
      simp only [decide_eq_true_eq] at hid
      have hmem := List.mem_of_find?_eq_some hf
      have hdel := (List.mem_filter.mp hmem).2
      simp only [decide_eq_true_eq] at hdel
      exact ⟨u, (List.mem_filter.mp hmem).1, hdel, hid, huv.symm⟩
  · intro udb v hv
    unfold listUsersResponse at hv
    obtain ⟨u, hu, huv⟩ := List.mem_map.mp hv
    have hdel := (List.mem_filter.mp hu).2
    simp only [decide_eq_true_eq] at hdel
    exact ⟨u, (List.mem_filter.mp hu).1, hdel, huv.symm⟩

/-- C7 counterexample: the Breed entity declares no DeleteDateColumn, yet the
breeds DELETE endpoint is documented (ADMIN-gated), so a breed delete cannot
consist of setting a deletion marker the entity does not have; the claim's
universal over every resource fails at Breed, while Cat and User do carry
the marker column. -/
theorem c7_soft_delete_counterexample :
    hasDeleteDateColumn EntityDef.breed = false ∧
    requiredAuth (ApiRoute.breeds HttpMethod.delete) = some Role.admin ∧
    isMutation HttpMethod.delete = true ∧
    hasDeleteDateColumn EntityDef.cat = true ∧
    hasDeleteDateColumn EntityDef.user = true :=
  ⟨rfl, rfl, rfl, rfl, rfl⟩

/-- C8 counterexample: the Breed entity declares no owner-identity column,
and the documented PATCH on the users surface is a mutation endpoint listed
with no auth requirement, so neither half of the claim holds for every
resource and every mutation path. -/
theorem c8_counterexample :
    ownerColumn ResourceEntity.breed = none ∧
    isMutation HttpMethod.patch = true ∧
    requiredAuth (ApiRoute.users HttpMethod.patch) = none :=
  ⟨rfl, rfl, rfl⟩

/-- C8 (amended): the Cat entity carries the owner column userEmail and every
cats endpoint requires an authenticated USER principal; the Breed entity
carries no owner column, its whole surface being gated by the ADMIN role
instead; and the documented users CRUD surface carries no auth requirement
at all. -/
theorem c8_owner_identity_amended :
    ownerColumn ResourceEntity.cat = some "userEmail" ∧
    ownerColumn ResourceEntity.breed = none ∧
    (∀ m, requiredAuth (ApiRoute.cats m) = some Role.user) ∧
    (∀ m, requiredAuth (ApiRoute.breeds m) = some Role.admin) ∧
    (∀ m, requiredAuth (ApiRoute.users m) = none) := by
  refine ⟨rfl, rfl, ?_, ?_, ?_⟩ <;> intro m <;> rfl

/-- Updating only the password of each stored user commutes with the
soft-delete filter on the user table. -/
theorem filter_password_update (db : List User) (f : User → String) :
    (db.map (fun u => { u with password := f u })).filter
        (fun u => decide (u.deletedAt = none))
      = (db.filter (fun u => decide (u.deletedAt = none))).map
        (fun u => { u with password := f u }) := by
  induction db with
  | nil => rfl
  | cons u rest ih =>
    by_cases h : u.deletedAt = none <;>
      simp [List.filter_cons, h, ih]

/-- C9: the password column never reaches a response: the default-selected
view of a user is unchanged by any change to the stored password, and both
user read paths (list and get-by-id) return identical responses on any two
stores that differ only in password fields. -/
theorem c9_password_never_returned (db : List User) (f : User → String) :
    (∀ (u : User) (pw : String),
      toUserView { u with password := pw } = toUserView u) ∧
    listUsersResponse (db.map (fun u => { u with password := f u }))
      = listUsersResponse db ∧
    (∀ i, getUserResponse (db.map (fun u => { u with password := f u })) i
      = getUserResponse db i) := by
  refine ⟨fun u pw => rfl, ?_, ?_⟩
  · unfold listUsersResponse
    rw [filter_password_update]
    rw [List.map_map]
    rfl
  · intro i
    unfold getUserResponse
    rw [filter_password_update, List.find?_map]
    simp only [Option.map_map]
    congr 1

end BackendNest
